import Mathlib

/-!
# speakerCheckBnd: the speaker availability routes

A shallow embedding of `src/models/Speaker.js`, `src/models/Page.js`,
`src/routes/speakers.js` and `src/routes/pages.js`.

Conventions of the embedding:

* a Mongo `ObjectId` is a natural number; a stored `Date` is its time value
  (milliseconds since the epoch, an integer), and a `Date` object in memory is a
  `JsDate`: a time value or Invalid Date;
* a collection is the list of its documents, each of which passes the validators of
  its schema; `findById` returns the first document carrying the identifier;
* `save` on a loaded document first validates it (an Invalid Date at a path of
  type `Date` is rejected), then requires the document to be still stored, and
  writes the `availability` path only when the assignment changed it; a rejected
  `save` throws, and the `catch` branch answers status 500 (lines 129-130);
* the request body fields `programDate` and `programTime` are strings or absent
  (`none` stands for both `undefined` and `null`), `makeAvailable` is the truthiness
  of the field;
* the `Date` constructor applied to the request string is the parameter `newDate`,
  the clock (`new Date()`) is the field `now` of the request;
* the `timestamps` bookkeeping and the `populate` calls, which belong to the
  database library, are outside the embedding, as are failures of the database
  connection.
-/

namespace SpeakerCheck

/-! ## Data model (`src/models`) -/

abbrev ObjectId := Nat

abbrev Date := Int

/-- The embedded `availability` record of `speakerSchema` (Speaker.js, lines 24-46). -/
structure Availability where
  isAvailable : Bool
  programDate : Option Date
  programTime : Option String
  lockedBy : Option ObjectId
  lockedAt : Option Date
deriving DecidableEq, Repr

/-- A document of `speakerSchema` (Speaker.js, lines 3-49). -/
structure Speaker where
  _id : ObjectId
  name : String
  area : String
  phoneNumber : String
  pageId : ObjectId
  availability : Availability
deriving DecidableEq, Repr

/-- A document of `pageSchema` (Page.js, lines 3-16). -/
structure Page where
  _id : ObjectId
  name : String
  order : Int
deriving DecidableEq, Repr

/-- The schema defaults of `availability`: `isAvailable: true`, every other field `null`. -/
def defaultAvailability : Availability :=
  { isAvailable := true, programDate := none, programTime := none,
    lockedBy := none, lockedAt := none }

/-- The document built by `new Speaker` from `name`, `area`, `phoneNumber` and `pageId`
(speakers.js, lines 45-50): the availability takes the schema defaults. -/
def newSpeaker (id : ObjectId) (name area phoneNumber : String) (pageId : ObjectId) : Speaker :=
  { _id := id, name := name, area := area, phoneNumber := phoneNumber, pageId := pageId,
    availability := defaultAvailability }

/-- The method `isCurrentlyAvailable` (Speaker.js, lines 52-67), with the clock as the
argument `now`. The first component is the returned value, the second is the
document after the call. A stored `Date` is an object, hence truthy whenever it
is not `null`. -/
def isCurrentlyAvailable (now : Date) (this : Speaker) : Bool × Speaker :=
  if this.availability.isAvailable then (true, this)
  else
    match this.availability.programDate with
    | some programDate =>
      let programDateTime := programDate
      if programDateTime < now then (true, this) else (false, this)
    | none => (false, this)

/-! ## The stores -/

/-- `Speaker.findById` / `Page.findById` on a collection, by the key `key`. -/
def findById {α : Type} (key : α → ObjectId) (coll : List α) (id : ObjectId) : Option α :=
  coll.find? (fun d => key d == id)

/-- `Speaker.countDocuments` with the filter on `pageId` (pages.js, line 62). -/
def countDocuments (speakers : List Speaker) (pageId : ObjectId) : Nat :=
  (speakers.filter (fun s => s.pageId == pageId)).length

/-- `Page.findByIdAndDelete(id)` (pages.js, line 70): the deleted document, if any,
and the collection afterwards. -/
def findByIdAndDelete (pages : List Page) (id : ObjectId) : Option Page × List Page :=
  (findById Page._id pages id, pages.eraseP (fun p => p._id == id))

/-! ## `PATCH /:id/availability` (speakers.js, lines 83-132) -/

/-- The request body after destructuring (line 85). -/
structure Body where
  programDate : Option String
  programTime : Option String
  makeAvailable : Bool
deriving DecidableEq, Repr

/-- A request to `PATCH /:id/availability`: the route parameter, the identity left
by `authenticate` in `req.userId`, the body, and the clock at the time of the request. -/
structure Req where
  id : ObjectId
  userId : Option ObjectId
  body : Body
  now : Date
deriving DecidableEq, Repr

/-- The answers of the availability route. -/
inductive Response where
  /-- Status 200, `res.json(speaker)` (line 128). -/
  | ok (speaker : Speaker)
  /-- Status 404, "Speaker not found" (line 89). -/
  | notFound
  /-- Status 400, "Program date and time are required" (line 104). -/
  | dateTimeRequired
  /-- Status 400, "Speaker is already scheduled for a program", with the
  `lockedBy` of the stored availability (lines 109-112). -/
  | alreadyScheduled (lockedBy : Option ObjectId)
  /-- Status 500, "Error updating availability" (lines 129-130). -/
  | serverError
deriving DecidableEq, Repr

/-- A `Date` object in memory: a time value, or Invalid Date. -/
inductive JsDate where
  | valid (time : Date)
  | invalid
deriving DecidableEq, Repr

/-- The object literal assigned to `speaker.availability` (lines 94-100 and 115-121),
before the schema casts it. -/
structure Assigned where
  isAvailable : Bool
  programDate : Option JsDate
  programTime : Option String
  lockedBy : Option ObjectId
  lockedAt : Option JsDate
deriving DecidableEq, Repr

/-- JavaScript truthiness of a body field that is a string or absent. -/
def truthy : Option String → Bool
  | none => false
  | some s => decide (s ≠ "")

/-- Lines 88-122: the transition applied to the loaded document. `Except.error` is
an early `return res.status(...)`, `Except.ok` is the loaded document together
with the object assigned to its `availability`, on which `save` is called next.
In the last branch both body fields are truthy, so `programDate.map newDate` is
`new Date(programDate)`. -/
def transition (newDate : String → JsDate) (req : Req) :
    Option Speaker → Except Response (Speaker × Assigned)
  | none => .error .notFound
  | some speaker =>
    if req.body.makeAvailable then
      .ok (speaker,
            { isAvailable := true, programDate := none, programTime := none,
              lockedBy := none, lockedAt := none })
    else if !truthy req.body.programDate || !truthy req.body.programTime then
      .error .dateTimeRequired
    else if !speaker.availability.isAvailable then
      .error (.alreadyScheduled speaker.availability.lockedBy)
    else
      .ok (speaker,
            { isAvailable := false, programDate := req.body.programDate.map newDate,
              programTime := req.body.programTime, lockedBy := req.userId,
              lockedAt := some (.valid req.now) })

/-- The cast of a value to the schema type `Date` (Speaker.js, lines 29-32 and 42-45):
`null` stays `null`, a date stays its time value, Invalid Date is rejected. -/
def castDate : Option JsDate → Option (Option Date)
  | none => some none
  | some (.valid time) => some (some time)
  | some .invalid => none

/-- The cast of the assigned object to the schema of `availability`; `none` when a
path is rejected, which `save` reports as a validation error. -/
def castAvailability (assigned : Assigned) : Option Availability :=
  match castDate assigned.programDate, castDate assigned.lockedAt with
  | some programDate, some lockedAt =>
    some { isAvailable := assigned.isAvailable, programDate := programDate,
           programTime := assigned.programTime, lockedBy := assigned.lockedBy,
           lockedAt := lockedAt }
  | _, _ => none

/-- The update sent by `save`: the `availability` path of the stored document with
this `_id` is set. -/
def setAvailability (id : ObjectId) (a : Availability) : List Speaker → List Speaker
  | [] => []
  | d :: ds =>
    if d._id = id then { d with availability := a } :: ds else d :: setAvailability id a ds

/-- The call `speaker.save()` (line 124) on the loaded document `speaker` after the
assignment of `assigned`. `none` is a rejection (validation error, or the
document is no longer stored); otherwise the document in memory and the
collection afterwards. Nothing is written when the assigned availability equals
the loaded one, since no path is then modified. -/
def save (speaker : Speaker) (assigned : Assigned) (speakers : List Speaker) :
    Option (Speaker × List Speaker) :=
  match castAvailability assigned with
  | none => none
  | some a =>
    match findById Speaker._id speakers speaker._id with
    | none => none
    | some _ =>
      some ({ speaker with availability := a },
            if a = speaker.availability then speakers
            else setAvailability speaker._id a speakers)

/-- The whole handler (lines 83-132): load (line 86), transition (lines 88-122), then
save and answer with the document in memory (lines 124-128), or answer status
500 when `save` throws (lines 129-130). Returns the answer and the speaker
collection afterwards. -/
def patchAvailability (newDate : String → JsDate) (req : Req) (speakers : List Speaker) :
    Response × List Speaker :=
  match transition newDate req (findById Speaker._id speakers req.id) with
  | .error res => (res, speakers)
  | .ok (speaker, assigned) =>
    match save speaker assigned speakers with
    | none => (.serverError, speakers)
    | some (doc, speakers') => (.ok doc, speakers')

/-- A sequence of requests served one after another; the answers in order and the
final collection. -/
def serve (newDate : String → JsDate) : List Req → List Speaker → List Response × List Speaker
  | [], speakers => ([], speakers)
  | req :: reqs, speakers =>
    let r := patchAvailability newDate req speakers
    let rest := serve newDate reqs r.2
    (r.1 :: rest.1, rest.2)

/-! ## Interleaved requests

The handler suspends at `await Speaker.findById` (line 86) and at
`await speaker.save()` (line 124). A request in flight is therefore in one of
four phases, and an interleaving is a schedule: the list of the indices of the
requests that take the next step. The schema sets no version check
(`optimisticConcurrency` is not among its options, Speaker.js lines 47-49) and the
handler takes no lock, so the write of a modified `availability` is applied
whatever happened to the stored document since the load. -/

/-- The phase of a request in flight. -/
inductive Phase where
  /-- Received, `findById` not yet answered. -/
  | pending
  /-- The database answered `findById` with `doc`; lines 88-122 not yet run. -/
  | loaded (doc : Option Speaker)
  /-- Lines 88-122 ran on the loaded `doc` and `save` was called after the assignment
  of `assigned`; the database has not yet answered. -/
  | decided (doc : Speaker) (assigned : Assigned)
  /-- The request was answered. -/
  | done (res : Response)
deriving DecidableEq, Repr

/-- The speaker collection together with the phase of every request. -/
structure Sys where
  speakers : List Speaker
  phases : List Phase
deriving DecidableEq, Repr

/-- Every request received, none started. -/
def start (reqs : List Req) (speakers : List Speaker) : Sys :=
  { speakers := speakers, phases := reqs.map (fun _ => Phase.pending) }

/-- Request `i` takes its next step: load, then transition, then persist and answer. -/
def step (newDate : String → JsDate) (reqs : List Req) (i : Nat) (σ : Sys) : Sys :=
  match reqs[i]?, σ.phases[i]? with
  | some req, some .pending =>
    { σ with phases := σ.phases.set i (.loaded (findById Speaker._id σ.speakers req.id)) }
  | some req, some (.loaded doc) =>
    match transition newDate req doc with
    | .error res => { σ with phases := σ.phases.set i (.done res) }
    | .ok (speaker, assigned) => { σ with phases := σ.phases.set i (.decided speaker assigned) }
  | some _, some (.decided speaker assigned) =>
    match save speaker assigned σ.speakers with
    | none => { σ with phases := σ.phases.set i (.done .serverError) }
    | some (doc, speakers') =>
      { speakers := speakers', phases := σ.phases.set i (.done (.ok doc)) }
  | _, _ => σ

/-- The system after the steps of a schedule. -/
def run (newDate : String → JsDate) (reqs : List Req) (schedule : List Nat) (σ : Sys) : Sys :=
  schedule.foldl (fun τ i => step newDate reqs i τ) σ

/-- The schedule that serves `n` requests one after another, starting with request
`i`: each request takes its three steps before the next one starts. -/
def serialFrom (i : Nat) : Nat → List Nat
  | 0 => []
  | n + 1 => i :: i :: i :: serialFrom (i + 1) n

/-- The schedule that serves requests `0` to `n - 1` one after another. -/
def serial (n : Nat) : List Nat := serialFrom 0 n

/-- Whether a request was answered with status 200. -/
def Phase.succeeded : Phase → Bool
  | .done (.ok _) => true
  | _ => false

/-! ## `DELETE /:id` on pages (pages.js, lines 59-80) -/

/-- The answers of the page deletion route. -/
inductive PageResponse where
  /-- Status 200, "Page deleted successfully" (line 76). -/
  | deleted
  /-- Status 404, "Page not found" (line 73). -/
  | notFound
  /-- Status 400, "Cannot delete page. It has N speaker(s). ..." where N is
  `speakerCount` (lines 65-67). -/
  | hasSpeakers (speakerCount : Nat)
deriving DecidableEq, Repr

/-- The handler of `DELETE /:id` (lines 59-80): the answer, the page collection and
the speaker collection afterwards. -/
def deletePage (id : ObjectId) (pages : List Page) (speakers : List Speaker) :
    PageResponse × List Page × List Speaker :=
  let speakerCount := countDocuments speakers id
  if speakerCount > 0 then
    (.hasSpeakers speakerCount, pages, speakers)
  else
    match findByIdAndDelete pages id with
    | (none, pages') => (.notFound, pages', speakers)
    | (some _, pages') => (.deleted, pages', speakers)

/-! ## Predicates of the specification -/

/-- Invariant I1: `isAvailable` holds exactly when the four locked fields are all
`null`, and when it does not hold all four are set. -/
def UnitInvariant (a : Availability) : Prop :=
  (a.isAvailable = true ↔
    (a.programDate = none ∧ a.programTime = none ∧ a.lockedBy = none ∧ a.lockedAt = none)) ∧
  (a.isAvailable = false →
    (a.programDate ≠ none ∧ a.programTime ≠ none ∧ a.lockedBy ≠ none ∧ a.lockedAt ≠ none))

instance (a : Availability) : Decidable (UnitInvariant a) := by
  unfold UnitInvariant; infer_instance

/-- A body field that is present and not empty. -/
def Present (field : Option String) : Prop :=
  ∃ s, field = some s ∧ s ≠ ""

/-- A `programDate` field that is present, not empty, read by the `Date` constructor
as a valid date, and later than `now`. -/
def ValidFutureDate (newDate : String → JsDate) (now : Date) (field : Option String) : Prop :=
  ∃ s time, field = some s ∧ s ≠ "" ∧ newDate s = .valid time ∧ now < time

/-! ## Concrete documents and requests used in the examples -/

/-- A speaker booked by user 7 for a program at time 100. -/
def bookedSpeaker : Speaker :=
  { _id := 1, name := "Asha", area := "Physics", phoneNumber := "555-0101", pageId := 4,
    availability :=
      { isAvailable := false, programDate := some 100, programTime := some "09:00",
        lockedBy := some 7, lockedAt := some 50 } }

/-- A speaker as created by `POST /`. -/
def freeSpeaker : Speaker := newSpeaker 1 "Asha" "Physics" "555-0101" 4

/-- User `userId` asks at time `now` to book speaker 1 for "2025-06-01" at "10:00". -/
def bookReq (userId : ObjectId) (now : Date) : Req :=
  { id := 1, userId := some userId, now := now,
    body := { programDate := some "2025-06-01", programTime := some "10:00",
              makeAvailable := false } }

/-- User `userId` asks at time `now` to release speaker 1, with no date and no time. -/
def releaseReq (userId : ObjectId) (now : Date) : Req :=
  { id := 1, userId := some userId, now := now,
    body := { programDate := none, programTime := none, makeAvailable := true } }

/-- User 8 asks at time 60 to book speaker 1 for "not-a-date" at "10:00". -/
def badDateReq : Req :=
  { id := 1, userId := some 8, now := 60,
    body := { programDate := some "not-a-date", programTime := some "10:00",
              makeAvailable := false } }

/-- The `Date` constructor on the strings of the examples: an ISO date is read as
midnight UTC of that day, and "not-a-date" gives Invalid Date. -/
def sampleDate : String → JsDate
  | "2025-06-01" => .valid 1748736000000
  | "2025-06-02" => .valid 1748822400000
  | _ => .invalid

/-! ## Lemmas on the stores -/

theorem truthy_iff_present (field : Option String) : truthy field = true ↔ Present field := by
  cases field with
  | none => simp [truthy, Present]
  | some s => simp [truthy, Present]

theorem present_truthy (field : Option String) (h : Present field) : truthy field = true :=
  (truthy_iff_present field).2 h

theorem findById_key {α : Type} (key : α → ObjectId) (coll : List α) (id : ObjectId) (d : α)
    (h : findById key coll id = some d) : key d = id := by
  have := List.find?_some h
  simpa using this

theorem findById_setAvailability (speakers : List Speaker) (id : ObjectId) (a : Availability)
    (sp : Speaker) (h : findById Speaker._id speakers id = some sp) :
    findById Speaker._id (setAvailability id a speakers) id =
      some { sp with availability := a } := by
  induction speakers with
  | nil => simp [findById] at h
  | cons d ds ih =>
    unfold findById at h ih ⊢
    by_cases hd : d._id = id
    · simp [List.find?_cons, hd] at h
      subst h
      simp [setAvailability, hd, List.find?_cons]
    · simp [List.find?_cons, hd] at h
      simp [setAvailability, hd, List.find?_cons]
      exact ih h

theorem mem_setAvailability (id : ObjectId) (a : Availability) (d : Speaker)
    (speakers : List Speaker) (h : d ∈ setAvailability id a speakers) :
    d.availability = a ∨ d ∈ speakers := by
  induction speakers with
  | nil => simp [setAvailability] at h
  | cons e es ih =>
    by_cases he : e._id = id
    · simp [setAvailability, he] at h
      rcases h with h | h
      · exact Or.inl (by rw [h])
      · exact Or.inr (List.mem_cons_of_mem _ h)
    · simp [setAvailability, he] at h
      rcases h with h | h
      · exact Or.inr (h ▸ List.mem_cons_self _ _)
      · rcases ih h with h | h
        · exact Or.inl h
        · exact Or.inr (List.mem_cons_of_mem _ h)

/-- What an accepted `save` returns. -/
theorem save_some (speaker : Speaker) (assigned : Assigned) (speakers : List Speaker)
    (doc : Speaker) (speakers' : List Speaker)
    (h : save speaker assigned speakers = some (doc, speakers')) :
    ∃ a, castAvailability assigned = some a ∧ doc = { speaker with availability := a } ∧
      (speakers' = speakers ∨ speakers' = setAvailability speaker._id a speakers) := by
  unfold save at h
  cases hc : castAvailability assigned with
  | none => simp [hc] at h
  | some a =>
    cases hf : findById Speaker._id speakers speaker._id with
    | none => simp [hc, hf] at h
    | some d =>
      simp only [hc, hf, Option.some.injEq, Prod.mk.injEq] at h
      refine ⟨a, rfl, h.1.symm, ?_⟩
      by_cases ha : a = speaker.availability
      · exact Or.inl (by rw [← h.2, if_pos ha])
      · exact Or.inr (by rw [← h.2, if_neg ha])

/-- The handler on a release request for a stored speaker. -/
theorem patch_release (newDate : String → JsDate) (req : Req) (speakers : List Speaker)
    (sp : Speaker) (hfind : findById Speaker._id speakers req.id = some sp)
    (hrel : req.body.makeAvailable = true) :
    patchAvailability newDate req speakers =
      (.ok { sp with availability := defaultAvailability },
       if defaultAvailability = sp.availability then speakers
       else setAvailability sp._id defaultAvailability speakers) := by
  have hid : sp._id = req.id := findById_key _ _ _ _ hfind
  have hfind' : findById Speaker._id speakers sp._id = some sp := by rw [hid]; exact hfind
  simp [patchAvailability, transition, save, castAvailability, castDate, hfind, hfind', hrel,
    defaultAvailability]

/-- The handler on a booking request for a stored speaker that is not available. -/
theorem patch_locked (newDate : String → JsDate) (req : Req) (speakers : List Speaker)
    (sp : Speaker) (hfind : findById Speaker._id speakers req.id = some sp)
    (hlocked : sp.availability.isAvailable = false)
    (hbook : req.body.makeAvailable = false)
    (hd : truthy req.body.programDate = true) (ht : truthy req.body.programTime = true) :
    patchAvailability newDate req speakers =
      (.alreadyScheduled sp.availability.lockedBy, speakers) := by
  simp [patchAvailability, transition, hfind, hlocked, hbook, hd, ht]

/-- An accepted `save` whose assignment changed `isAvailable` writes the availability. -/
theorem save_modified (speaker : Speaker) (assigned : Assigned) (speakers : List Speaker)
    (a : Availability) (d : Speaker) (hc : castAvailability assigned = some a)
    (hf : findById Speaker._id speakers speaker._id = some d)
    (hne : a.isAvailable ≠ speaker.availability.isAvailable) :
    save speaker assigned speakers =
      some ({ speaker with availability := a }, setAvailability speaker._id a speakers) := by
  have hne' : ¬ a = speaker.availability := fun h => hne (by rw [h])
  simp [save, hc, hf, hne']

/-- The transition on a booking request for a loaded speaker that is available. -/
theorem transition_free (newDate : String → JsDate) (req : Req) (sp : Speaker) (date : String)
    (hfree : sp.availability.isAvailable = true)
    (hbook : req.body.makeAvailable = false)
    (hd : req.body.programDate = some date) (hdne : date ≠ "")
    (ht : truthy req.body.programTime = true) :
    transition newDate req (some sp) =
      .ok (sp, { isAvailable := false, programDate := some (newDate date),
                 programTime := req.body.programTime, lockedBy := req.userId,
                 lockedAt := some (.valid req.now) }) := by
  have hdt : truthy req.body.programDate = true := present_truthy _ ⟨date, hd, hdne⟩
  simp [transition, hbook, hdt, ht, hfree]
  simp [hd]

/-- The handler on a booking request with a valid date for a stored speaker that is
available. -/
theorem patch_free (newDate : String → JsDate) (req : Req) (speakers : List Speaker)
    (sp : Speaker) (date : String) (time : Date)
    (hfind : findById Speaker._id speakers req.id = some sp)
    (hfree : sp.availability.isAvailable = true)
    (hbook : req.body.makeAvailable = false)
    (hd : req.body.programDate = some date) (hdne : date ≠ "")
    (hvalid : newDate date = .valid time)
    (ht : truthy req.body.programTime = true) :
    patchAvailability newDate req speakers =
      (.ok { sp with availability :=
              { isAvailable := false, programDate := some time,
                programTime := req.body.programTime, lockedBy := req.userId,
                lockedAt := some req.now } },
       setAvailability sp._id
          { isAvailable := false, programDate := some time,
            programTime := req.body.programTime, lockedBy := req.userId,
            lockedAt := some req.now } speakers) := by
  have hid : sp._id = req.id := findById_key _ _ _ _ hfind
  have hfind' : findById Speaker._id speakers sp._id = some sp := by rw [hid]; exact hfind
  unfold patchAvailability
  rw [hfind, transition_free newDate req sp date hfree hbook hd hdne ht]
  simp only
  rw [save_modified sp _ speakers
    { isAvailable := false, programDate := some time,
      programTime := req.body.programTime, lockedBy := req.userId,
      lockedAt := some req.now } sp
    (by simp [castAvailability, castDate, hvalid]) hfind' (by simp [hfree])]

/-- The handler on a booking request whose date is not a date, for a stored speaker
that is available: `save` throws, nothing is stored. -/
theorem patch_invalid (newDate : String → JsDate) (req : Req) (speakers : List Speaker)
    (sp : Speaker) (date : String)
    (hfind : findById Speaker._id speakers req.id = some sp)
    (hfree : sp.availability.isAvailable = true)
    (hbook : req.body.makeAvailable = false)
    (hd : req.body.programDate = some date) (hdne : date ≠ "")
    (hinvalid : newDate date = .invalid)
    (ht : truthy req.body.programTime = true) :
    patchAvailability newDate req speakers = (.serverError, speakers) := by
  unfold patchAvailability
  rw [hfind, transition_free newDate req sp date hfree hbook hd hdne ht]
  simp [save, castAvailability, castDate, hinvalid]

/-- Every availability that passes the cast after the transition satisfies the unit
invariant, provided a booking carries a caller identity. -/
theorem transition_unit (newDate : String → JsDate) (req : Req) (loaded : Option Speaker)
    (speaker : Speaker) (assigned : Assigned) (a : Availability)
    (hcaller : req.body.makeAvailable = false → req.userId ≠ none)
    (h : transition newDate req loaded = .ok (speaker, assigned))
    (hcast : castAvailability assigned = some a) : UnitInvariant a := by
  cases loaded with
  | none => simp [transition] at h
  | some sp =>
    unfold transition at h
    by_cases hm : req.body.makeAvailable = true
    · simp [hm] at h
      rw [← h.2] at hcast
      simp [castAvailability, castDate] at hcast
      subst hcast
      simp [UnitInvariant]
    · have hm' : req.body.makeAvailable = false := by simpa using hm
      simp only [hm', Bool.false_eq_true, if_false] at h
      split at h
      · simp at h
      · rename_i hfields
        split at h
        · simp at h
        · simp only [Except.ok.injEq, Prod.mk.injEq] at h
          simp only [Bool.or_eq_true, Bool.not_eq_true', not_or, Bool.not_eq_false] at hfields
          obtain ⟨s, hs, -⟩ := (truthy_iff_present _).1 hfields.1
          obtain ⟨t, ht, -⟩ := (truthy_iff_present _).1 hfields.2
          have hu := hcaller hm'
          rw [← h.2] at hcast
          simp only [hs, Option.map_some', castAvailability] at hcast
          cases hnd : newDate s with
          | invalid => simp [hnd, castDate] at hcast
          | valid time =>
            simp [hnd, castDate] at hcast
            subst hcast
            simp [UnitInvariant, ht, hu]

theorem patch_unit (newDate : String → JsDate) (req : Req) (speakers : List Speaker)
    (hcaller : req.body.makeAvailable = false → req.userId ≠ none)
    (hinv : ∀ s ∈ speakers, UnitInvariant s.availability) :
    ∀ s ∈ (patchAvailability newDate req speakers).2, UnitInvariant s.availability := by
  intro s hs
  unfold patchAvailability at hs
  cases ht : transition newDate req (findById Speaker._id speakers req.id) with
  | error res =>
    rw [ht] at hs
    exact hinv s hs
  | ok pair =>
    obtain ⟨speaker, assigned⟩ := pair
    rw [ht] at hs
    simp only at hs
    cases hsave : save speaker assigned speakers with
    | none =>
      rw [hsave] at hs
      exact hinv s hs
    | some res =>
      obtain ⟨doc, speakers'⟩ := res
      rw [hsave] at hs
      simp only at hs
      obtain ⟨a, hcast, -, hstore⟩ := save_some speaker assigned speakers doc speakers' hsave
      rcases hstore with hstore | hstore
      · rw [hstore] at hs
        exact hinv s hs
      · rw [hstore] at hs
        rcases mem_setAvailability _ _ _ _ hs with h | h
        · rw [h]
          exact transition_unit newDate req _ speaker assigned a hcaller ht hcast
        · exact hinv s h

theorem serve_unit (newDate : String → JsDate) (reqs : List Req) :
    ∀ speakers : List Speaker,
      (∀ r ∈ reqs, r.body.makeAvailable = false → r.userId ≠ none) →
      (∀ s ∈ speakers, UnitInvariant s.availability) →
      ∀ s ∈ (serve newDate reqs speakers).2, UnitInvariant s.availability := by
  induction reqs with
  | nil => intro speakers _ hinv; simpa [serve] using hinv
  | cons r rs ih =>
    intro speakers hcaller hinv
    simp only [serve]
    exact ih _ (fun q hq => hcaller q (List.mem_cons_of_mem _ hq))
      (patch_unit newDate r speakers (hcaller r (List.mem_cons_self _ _)) hinv)

theorem eraseP_split (pages : List Page) (id : ObjectId) (p : Page)
    (h : findById Page._id pages id = some p) :
    ∃ before after, pages = before ++ p :: after ∧
      pages.eraseP (fun q => q._id == id) = before ++ after := by
  induction pages with
  | nil => simp [findById] at h
  | cons q qs ih =>
    unfold findById at h ih
    by_cases hq : q._id = id
    · simp [List.find?_cons, hq] at h
      subst h
      exact ⟨[], qs, rfl, by simp [List.eraseP_cons, hq]⟩
    · simp [List.find?_cons, hq] at h
      obtain ⟨before, after, h1, h2⟩ := ih h
      refine ⟨q :: before, after, by simp [h1], ?_⟩
      simp [List.eraseP_cons, hq, h2]

theorem getElem?_middle {α : Type} (pre post : List α) (x : α) :
    (pre ++ x :: post)[pre.length]? = some x := by
  induction pre with
  | nil => simp
  | cons a as ih => simpa using ih

theorem set_middle {α : Type} (pre post : List α) (x y : α) :
    (pre ++ x :: post).set pre.length y = pre ++ y :: post := by
  induction pre with
  | nil => rfl
  | cons a as ih => simp

/-- Three consecutive steps of a pending request are one run of the handler. -/
theorem run_three (newDate : String → JsDate) (reqs : List Req) (req : Req)
    (speakers : List Speaker) (pre post : List Phase)
    (hreq : reqs[pre.length]? = some req) :
    run newDate reqs [pre.length, pre.length, pre.length]
        { speakers := speakers, phases := pre ++ Phase.pending :: post } =
      { speakers := (patchAvailability newDate req speakers).2,
        phases := pre ++ Phase.done (patchAvailability newDate req speakers).1 :: post } := by
  simp only [run, List.foldl_cons, List.foldl_nil]
  have h1 : step newDate reqs pre.length
      { speakers := speakers, phases := pre ++ Phase.pending :: post } =
      { speakers := speakers,
        phases := pre ++ Phase.loaded (findById Speaker._id speakers req.id) :: post } := by
    simp only [step, hreq, getElem?_middle, set_middle]
  rw [h1]
  unfold patchAvailability
  cases ht : transition newDate req (findById Speaker._id speakers req.id) with
  | error res =>
    have h2 : step newDate reqs pre.length
        { speakers := speakers,
          phases := pre ++ Phase.loaded (findById Speaker._id speakers req.id) :: post } =
        { speakers := speakers, phases := pre ++ Phase.done res :: post } := by
      simp only [step, hreq, getElem?_middle, set_middle, ht]
    rw [h2]
    simp only [step, hreq, getElem?_middle]
  | ok pair =>
    obtain ⟨speaker, assigned⟩ := pair
    have h2 : step newDate reqs pre.length
        { speakers := speakers,
          phases := pre ++ Phase.loaded (findById Speaker._id speakers req.id) :: post } =
        { speakers := speakers, phases := pre ++ Phase.decided speaker assigned :: post } := by
      simp only [step, hreq, getElem?_middle, set_middle, ht]
    rw [h2]
    cases hs : save speaker assigned speakers with
    | none => simp only [step, hreq, getElem?_middle, set_middle, hs]
    | some res =>
      obtain ⟨doc, speakers'⟩ := res
      simp only [step, hreq, getElem?_middle, set_middle, hs]

theorem run_append (newDate : String → JsDate) (reqs : List Req) (s₁ s₂ : List Nat) (σ : Sys) :
    run newDate reqs (s₁ ++ s₂) σ = run newDate reqs s₂ (run newDate reqs s₁ σ) := by
  simp [run, List.foldl_append]

/-- The serial schedule computes what `serve` computes. -/
theorem run_serialFrom (newDate : String → JsDate) (suf : List Req) :
    ∀ (pre : List Req) (answered : List Phase) (speakers : List Speaker),
      answered.length = pre.length →
      run newDate (pre ++ suf) (serialFrom pre.length suf.length)
          { speakers := speakers, phases := answered ++ suf.map (fun _ => Phase.pending) } =
        { speakers := (serve newDate suf speakers).2,
          phases := answered ++ (serve newDate suf speakers).1.map Phase.done } := by
  induction suf with
  | nil => intro pre answered speakers _; simp [serialFrom, run, serve]
  | cons r rs ih =>
    intro pre answered speakers hlen
    have hreq : (pre ++ r :: rs)[answered.length]? = some r := by
      rw [hlen]; exact getElem?_middle pre rs r
    have hsched : serialFrom pre.length (r :: rs).length =
        [answered.length, answered.length, answered.length] ++
          serialFrom (pre ++ [r]).length rs.length := by
      simp [serialFrom, hlen]
    rw [hsched, run_append, List.map_cons,
      run_three newDate (pre ++ r :: rs) r speakers answered _ hreq]
    have hih := ih (pre ++ [r])
      (answered ++ [Phase.done (patchAvailability newDate r speakers).1])
      (patchAvailability newDate r speakers).2 (by simp [hlen])
    simp only [List.append_assoc, List.singleton_append] at hih
    rw [hih]
    simp [serve]

theorem run_serial (newDate : String → JsDate) (reqs : List Req) (speakers : List Speaker) :
    run newDate reqs (serial reqs.length) (start reqs speakers) =
      { speakers := (serve newDate reqs speakers).2,
        phases := (serve newDate reqs speakers).1.map Phase.done } := by
  have h := run_serialFrom newDate reqs [] [] speakers rfl
  simpa [serial, start] using h

/-- Bookings served against a speaker that is not available are all refused, and
the collection is unchanged. -/
theorem serve_locked (newDate : String → JsDate) (id : ObjectId) (speakers : List Speaker)
    (sp : Speaker) (hfind : findById Speaker._id speakers id = some sp)
    (hlocked : sp.availability.isAvailable = false) (rs : List Req)
    (hall : ∀ q ∈ rs, q.id = id ∧ q.body.makeAvailable = false ∧
      Present q.body.programDate ∧ Present q.body.programTime) :
    serve newDate rs speakers =
      (List.replicate rs.length (Response.alreadyScheduled sp.availability.lockedBy),
        speakers) := by
  induction rs with
  | nil => rfl
  | cons q qs ih =>
    obtain ⟨hid, hbook, hd, ht⟩ := hall q (List.mem_cons_self _ _)
    have hq := patch_locked newDate q speakers sp (hid ▸ hfind) hlocked hbook
      (present_truthy _ hd) (present_truthy _ ht)
    simp only [serve, hq, List.length_cons, List.replicate_succ]
    rw [ih (fun x hx => hall x (List.mem_cons_of_mem _ hx))]

/-! ## The claims -/

/-- C1 (the code departs from the claim): a speaker locked for a program dated 100 is
reported available by `isCurrentlyAvailable` at time 200, yet a booking request
made at time 200 with a date and a time is answered "already scheduled" with the
old holder, and the stale lock stays in the store. -/
theorem C1_stale_lock_not_overwritten :
    (isCurrentlyAvailable 200 bookedSpeaker).1 = true ∧
    patchAvailability sampleDate (bookReq 8 200) [bookedSpeaker] =
      (.alreadyScheduled (some 7), [bookedSpeaker]) := by
  decide

/-- C2: a booking request (date and time present and not empty) for a stored speaker
whose `isAvailable` is false and whose program date has not elapsed is answered
"already scheduled" with the stored `lockedBy`, and the collection is unchanged. -/
theorem C2_active_lock_exclusive (newDate : String → JsDate) (req : Req)
    (speakers : List Speaker) (sp : Speaker) (d : Date)
    (hfind : findById Speaker._id speakers req.id = some sp)
    (hlocked : sp.availability.isAvailable = false)
    (hdate : sp.availability.programDate = some d) (hactive : req.now ≤ d)
    (hbook : req.body.makeAvailable = false)
    (hd : Present req.body.programDate) (ht : Present req.body.programTime) :
    patchAvailability newDate req speakers =
      (.alreadyScheduled sp.availability.lockedBy, speakers) :=
  patch_locked newDate req speakers sp hfind hlocked hbook
    (present_truthy _ hd) (present_truthy _ ht)

theorem C2_active_lock_exclusive_witness :
    patchAvailability sampleDate (bookReq 8 60) [bookedSpeaker] =
      (.alreadyScheduled (some 7), [bookedSpeaker]) :=
  C2_active_lock_exclusive sampleDate (bookReq 8 60) [bookedSpeaker] bookedSpeaker 100
    (by decide) rfl rfl (by decide) rfl
    ⟨"2025-06-01", rfl, by decide⟩ ⟨"10:00", rfl, by decide⟩

/-- C3: starting from newly created speakers, after any finite sequence of booking
and release requests (accepted or rejected, each booking carrying a caller
identity), every stored availability satisfies the unit invariant: `isAvailable`
is true exactly when the four locked fields are all null, and when it is false
all four are set. -/
theorem C3_unit_invariant_reachable (newDate : String → JsDate) (reqs : List Req)
    (speakers : List Speaker)
    (hnew : ∀ s ∈ speakers, s = newSpeaker s._id s.name s.area s.phoneNumber s.pageId)
    (hcaller : ∀ r ∈ reqs, r.body.makeAvailable = false → r.userId ≠ none) :
    ∀ s ∈ (serve newDate reqs speakers).2, UnitInvariant s.availability := by
  apply serve_unit newDate reqs speakers hcaller
  intro s hs
  rw [hnew s hs]
  simp [newSpeaker, defaultAvailability, UnitInvariant]

theorem C3_unit_invariant_reachable_witness :
    (serve sampleDate [bookReq 8 60, bookReq 9 61, releaseReq 9 62, bookReq 9 63]
        [freeSpeaker]).2 =
      [{ freeSpeaker with availability :=
          { isAvailable := false, programDate := some 1748736000000,
            programTime := some "10:00", lockedBy := some 9, lockedAt := some 63 } }] ∧
    UnitInvariant
      { isAvailable := false, programDate := some 1748736000000,
        programTime := some "10:00", lockedBy := some 9, lockedAt := some 63 } :=
  ⟨by decide,
   C3_unit_invariant_reachable sampleDate
    [bookReq 8 60, bookReq 9 61, releaseReq 9 62, bookReq 9 63] [freeSpeaker]
    (by decide) (by decide)
    { freeSpeaker with availability :=
        { isAvailable := false, programDate := some 1748736000000,
          programTime := some "10:00", lockedBy := some 9, lockedAt := some 63 } }
    (by decide)⟩

/-- C4: `isCurrentlyAvailable` returns true exactly when `isAvailable` is true or the
program date is set and strictly earlier than `now`; a locked speaker whose
program date equals `now` is reported not available; the document is unchanged
by the call. -/
theorem C4_isCurrentlyAvailable_spec (now : Date) (this : Speaker) :
    ((isCurrentlyAvailable now this).1 = true ↔
      (this.availability.isAvailable = true ∨
        ∃ d, this.availability.programDate = some d ∧ d < now)) ∧
    (isCurrentlyAvailable now
      { this with availability :=
          { this.availability with isAvailable := false, programDate := some now } }).1 = false ∧
    (isCurrentlyAvailable now this).2 = this := by
  refine ⟨?_, ?_, ?_⟩
  · unfold isCurrentlyAvailable
    by_cases ha : this.availability.isAvailable = true
    · simp [ha]
    · cases hd : this.availability.programDate with
      | none => simp [ha]
      | some d =>
        by_cases hlt : d < now
        · simp [ha, hlt]
        · simp [ha, hlt]
  · simp [isCurrentlyAvailable]
  · unfold isCurrentlyAvailable
    split
    · rfl
    · split
      · dsimp only
        split <;> rfl
      · rfl

/-- C5 (the claim as stated fails): a booking request for a free stored speaker whose
`programDate` is the present, non-empty string "not-a-date" does not succeed:
`new Date` gives Invalid Date, `save` rejects it, the answer is status 500 and
the speaker stays free. -/
theorem C5_invalid_date_not_booked :
    freeSpeaker.availability.isAvailable = true ∧
    Present badDateReq.body.programDate ∧ Present badDateReq.body.programTime ∧
    patchAvailability sampleDate badDateReq [freeSpeaker] =
      (.serverError, [freeSpeaker]) :=
  ⟨rfl, ⟨"not-a-date", rfl, by decide⟩, ⟨"10:00", rfl, by decide⟩, by decide⟩

/-- C5 (amended): a booking request with time present and not empty and with a date
present, not empty and read by the `Date` constructor as a valid date, for a
stored speaker whose `isAvailable` is true, is answered with status 200; the
document answered and stored has `isAvailable` false, the requested date, the
requested time, the caller as `lockedBy` and the time of the request as
`lockedAt`. -/
theorem C5_free_to_locked_valid_date (newDate : String → JsDate) (req : Req)
    (speakers : List Speaker) (sp : Speaker) (date time : String) (dateValue : Date)
    (hfind : findById Speaker._id speakers req.id = some sp)
    (hfree : sp.availability.isAvailable = true)
    (hbook : req.body.makeAvailable = false)
    (hd : req.body.programDate = some date) (hdne : date ≠ "")
    (hvalid : newDate date = .valid dateValue)
    (ht : req.body.programTime = some time) (htne : time ≠ "") :
    (patchAvailability newDate req speakers).1 =
      .ok { sp with availability :=
              { isAvailable := false, programDate := some dateValue,
                programTime := some time, lockedBy := req.userId,
                lockedAt := some req.now } } ∧
    findById Speaker._id (patchAvailability newDate req speakers).2 req.id =
      some { sp with availability :=
              { isAvailable := false, programDate := some dateValue,
                programTime := some time, lockedBy := req.userId,
                lockedAt := some req.now } } := by
  have hid : sp._id = req.id := findById_key _ _ _ _ hfind
  rw [patch_free newDate req speakers sp date dateValue hfind hfree hbook hd hdne hvalid
    (present_truthy _ ⟨time, ht, htne⟩)]
  simp only [ht, true_and]
  rw [← hid] at hfind ⊢
  exact findById_setAvailability speakers sp._id _ sp hfind

theorem C5_free_to_locked_valid_date_witness :
    (patchAvailability sampleDate (bookReq 8 60) [freeSpeaker]).1 =
      .ok { freeSpeaker with availability :=
              { isAvailable := false, programDate := some 1748736000000,
                programTime := some "10:00", lockedBy := (bookReq 8 60).userId,
                lockedAt := some (bookReq 8 60).now } } ∧
    findById Speaker._id (patchAvailability sampleDate (bookReq 8 60) [freeSpeaker]).2
        (bookReq 8 60).id =
      some { freeSpeaker with availability :=
              { isAvailable := false, programDate := some 1748736000000,
                programTime := some "10:00", lockedBy := (bookReq 8 60).userId,
                lockedAt := some (bookReq 8 60).now } } :=
  C5_free_to_locked_valid_date sampleDate (bookReq 8 60) [freeSpeaker] freeSpeaker
    "2025-06-01" "10:00" 1748736000000
    (by decide) rfl rfl rfl (by decide) (by decide) rfl (by decide)

/-- C6: a request with `makeAvailable` set, for a stored speaker in any availability
state, from any caller and with any date and time fields, is answered with
status 200; the document answered and stored has `isAvailable` true and the
four locked fields null. -/
theorem C6_release_unconditional (newDate : String → JsDate) (req : Req)
    (speakers : List Speaker) (sp : Speaker)
    (hfind : findById Speaker._id speakers req.id = some sp)
    (hrel : req.body.makeAvailable = true) :
    (patchAvailability newDate req speakers).1 =
      .ok { sp with availability :=
              { isAvailable := true, programDate := none, programTime := none,
                lockedBy := none, lockedAt := none } } ∧
    findById Speaker._id (patchAvailability newDate req speakers).2 req.id =
      some { sp with availability :=
              { isAvailable := true, programDate := none, programTime := none,
                lockedBy := none, lockedAt := none } } := by
  have hid : sp._id = req.id := findById_key _ _ _ _ hfind
  rw [patch_release newDate req speakers sp hfind hrel]
  refine ⟨rfl, ?_⟩
  by_cases hsame : defaultAvailability = sp.availability
  · rw [if_pos hsame, hfind]
    cases sp
    simp only at hsame
    subst hsame
    rfl
  · rw [if_neg hsame]
    rw [← hid] at hfind ⊢
    exact findById_setAvailability speakers sp._id defaultAvailability sp hfind

theorem C6_release_unconditional_witness :
    (patchAvailability sampleDate (releaseReq 9 60) [bookedSpeaker]).1 =
      .ok { bookedSpeaker with availability :=
              { isAvailable := true, programDate := none, programTime := none,
                lockedBy := none, lockedAt := none } } ∧
    findById Speaker._id (patchAvailability sampleDate (releaseReq 9 60) [bookedSpeaker]).2
        (releaseReq 9 60).id =
      some { bookedSpeaker with availability :=
              { isAvailable := true, programDate := none, programTime := none,
                lockedBy := none, lockedAt := none } } :=
  C6_release_unconditional sampleDate (releaseReq 9 60) [bookedSpeaker] bookedSpeaker
    (by decide) rfl

/-- C7: a request without `makeAvailable` whose `programDate` or `programTime` is
absent or empty, for a stored speaker in any availability state, is answered
"Program date and time are required" (not "already scheduled"), and the
collection is unchanged. -/
theorem C7_missing_fields_rejected (newDate : String → JsDate) (req : Req)
    (speakers : List Speaker) (sp : Speaker)
    (hfind : findById Speaker._id speakers req.id = some sp)
    (hbook : req.body.makeAvailable = false)
    (hmissing : (req.body.programDate = none ∨ req.body.programDate = some "") ∨
                (req.body.programTime = none ∨ req.body.programTime = some "")) :
    patchAvailability newDate req speakers = (.dateTimeRequired, speakers) := by
  have h : truthy req.body.programDate = false ∨ truthy req.body.programTime = false := by
    rcases hmissing with (h | h) | (h | h)
    · exact Or.inl (by rw [h]; rfl)
    · exact Or.inl (by rw [h]; simp [truthy])
    · exact Or.inr (by rw [h]; rfl)
    · exact Or.inr (by rw [h]; simp [truthy])
  rcases h with h | h
  · simp [patchAvailability, transition, hfind, hbook, h]
  · simp [patchAvailability, transition, hfind, hbook, h]

theorem C7_missing_fields_rejected_witness :
    patchAvailability sampleDate
        { id := 1, userId := some 8, now := 60,
          body := { programDate := some "2025-06-01", programTime := some "",
                    makeAvailable := false } }
        [bookedSpeaker] =
      (.dateTimeRequired, [bookedSpeaker]) :=
  C7_missing_fields_rejected sampleDate _ [bookedSpeaker] bookedSpeaker
    (by decide) rfl (Or.inr (Or.inr rfl))

/-- C8: two release requests in a row for a stored speaker both succeed, the second
answers the same document as the first and leaves the collection as the first
left it; releasing a stored speaker that is already free (its availability
satisfying the unit invariant) answers the document as it was and leaves the
collection unchanged. -/
theorem C8_release_idempotent (newDate : String → JsDate) (r₁ r₂ : Req)
    (speakers : List Speaker) (sp : Speaker)
    (hfind : findById Speaker._id speakers r₁.id = some sp)
    (hsame : r₂.id = r₁.id)
    (h₁ : r₁.body.makeAvailable = true) (h₂ : r₂.body.makeAvailable = true) :
    (∃ doc, (patchAvailability newDate r₁ speakers).1 = .ok doc ∧
      patchAvailability newDate r₂ (patchAvailability newDate r₁ speakers).2 =
        (.ok doc, (patchAvailability newDate r₁ speakers).2)) ∧
    (sp.availability.isAvailable = true → UnitInvariant sp.availability →
      patchAvailability newDate r₁ speakers = (.ok sp, speakers)) := by
  have hid : sp._id = r₁.id := findById_key _ _ _ _ hfind
  have hdef : ∀ d : Speaker, d.availability = defaultAvailability →
      ({ d with availability := defaultAvailability } : Speaker) = d := by
    intro d hd
    cases d
    simp only at hd
    subst hd
    rfl
  constructor
  · refine ⟨{ sp with availability := defaultAvailability }, ?_, ?_⟩
    · rw [patch_release newDate r₁ speakers sp hfind h₁]
    · rw [patch_release newDate r₁ speakers sp hfind h₁]
      simp only
      have hstored : findById Speaker._id
          (if defaultAvailability = sp.availability then speakers
            else setAvailability sp._id defaultAvailability speakers) r₂.id =
          some { sp with availability := defaultAvailability } := by
        rw [hsame]
        by_cases hs : defaultAvailability = sp.availability
        · rw [if_pos hs, hfind, hdef sp hs.symm]
        · rw [if_neg hs]
          rw [← hid] at hfind ⊢
          exact findById_setAvailability speakers sp._id defaultAvailability sp hfind
      rw [patch_release newDate r₂ _ _ hstored h₂]
      simp [hdef]
  · intro hfree hinv
    have hav : sp.availability = defaultAvailability := by
      obtain ⟨h1, h2, h3, h4⟩ := hinv.1.1 hfree
      cases hsp : sp.availability with
      | mk a b c d e =>
        rw [hsp] at hfree h1 h2 h3 h4
        simp only at hfree h1 h2 h3 h4
        subst hfree h1 h2 h3 h4
        rfl
    rw [patch_release newDate r₁ speakers sp hfind h₁, hdef sp hav, if_pos hav.symm]

theorem C8_release_idempotent_witness :
    (∃ doc, (patchAvailability sampleDate (releaseReq 9 60) [bookedSpeaker]).1 = .ok doc ∧
      patchAvailability sampleDate (releaseReq 8 61)
          (patchAvailability sampleDate (releaseReq 9 60) [bookedSpeaker]).2 =
        (.ok doc, (patchAvailability sampleDate (releaseReq 9 60) [bookedSpeaker]).2)) ∧
    patchAvailability sampleDate (releaseReq 9 60) [freeSpeaker] =
      (.ok freeSpeaker, [freeSpeaker]) :=
  ⟨(C8_release_idempotent sampleDate (releaseReq 9 60) (releaseReq 8 61) [bookedSpeaker]
      bookedSpeaker (by decide) rfl rfl rfl).1,
   (C8_release_idempotent sampleDate (releaseReq 9 60) (releaseReq 8 61) [freeSpeaker]
      freeSpeaker (by decide) rfl rfl rfl).2 rfl (by decide)⟩

/-- C10: when at least one speaker has the page id, `deletePage` answers the refusal
carrying the exact number of speakers with that page id and removes nothing;
when no speaker has the page id and the page is stored, `deletePage` succeeds
and the page collection afterwards is the one before without that page. -/
theorem C10_delete_page_guard (id : ObjectId) (pages : List Page) (speakers : List Speaker) :
    ((∃ s ∈ speakers, s.pageId = id) →
      deletePage id pages speakers =
        (.hasSpeakers (speakers.countP (fun s => decide (s.pageId = id))), pages, speakers)) ∧
    ((∀ s ∈ speakers, s.pageId ≠ id) → ∀ p, findById Page._id pages id = some p →
      ∃ before after, pages = before ++ p :: after ∧
        deletePage id pages speakers = (.deleted, before ++ after, speakers)) := by
  have hcount : countDocuments speakers id = speakers.countP (fun s => decide (s.pageId = id)) := by
    unfold countDocuments
    rw [List.countP_eq_length_filter]
    congr 1
  constructor
  · rintro ⟨s, hs, hpid⟩
    have hpos : 0 < speakers.countP (fun s => decide (s.pageId = id)) :=
      List.countP_pos_iff.2 ⟨s, hs, by simpa using hpid⟩
    simp [deletePage, hcount, hpos]
  · intro hnone p hp
    have hzero : speakers.countP (fun s => decide (s.pageId = id)) = 0 := by
      rw [List.countP_eq_zero]
      intro s hs
      simpa using hnone s hs
    obtain ⟨before, after, h1, h2⟩ := eraseP_split pages id p hp
    refine ⟨before, after, h1, ?_⟩
    simp [deletePage, hcount, hzero, findByIdAndDelete, hp, h2]

theorem C10_delete_page_guard_witness :
    deletePage 4 [⟨3, "Guests", 0⟩, ⟨4, "Faculty", 1⟩] [bookedSpeaker] =
      (.hasSpeakers 1, [⟨3, "Guests", 0⟩, ⟨4, "Faculty", 1⟩], [bookedSpeaker]) ∧
    ∃ before after, [⟨3, "Guests", 0⟩, (⟨4, "Faculty", 1⟩ : Page)] =
        before ++ ⟨4, "Faculty", 1⟩ :: after ∧
      deletePage 4 [⟨3, "Guests", 0⟩, ⟨4, "Faculty", 1⟩] [] = (.deleted, before ++ after, []) :=
  ⟨(C10_delete_page_guard 4 [⟨3, "Guests", 0⟩, ⟨4, "Faculty", 1⟩] [bookedSpeaker]).1
      ⟨bookedSpeaker, List.mem_singleton.2 rfl, rfl⟩,
   (C10_delete_page_guard 4 [⟨3, "Guests", 0⟩, ⟨4, "Faculty", 1⟩] []).2
      (fun _ h => absurd h (List.not_mem_nil _)) ⟨4, "Faculty", 1⟩ (by decide)⟩

/-- C9 (the claim as stated fails): two booking requests with valid future dates for
the same free speaker, whose steps interleave as load, load, transition,
transition, persist, persist, both load the speaker as free and are both
answered with status 200. -/
theorem C9_interleaved_bookings_both_succeed :
    ValidFutureDate sampleDate (bookReq 8 60).now (bookReq 8 60).body.programDate ∧
    ValidFutureDate sampleDate (bookReq 9 61).now (bookReq 9 61).body.programDate ∧
    (run sampleDate [bookReq 8 60, bookReq 9 61] [0, 1]
        (start [bookReq 8 60, bookReq 9 61] [freeSpeaker])).phases =
      [.loaded (some freeSpeaker), .loaded (some freeSpeaker)] ∧
    (run sampleDate [bookReq 8 60, bookReq 9 61] [0, 1, 0, 1, 0, 1]
        (start [bookReq 8 60, bookReq 9 61] [freeSpeaker])).phases.map Phase.succeeded =
      [true, true] :=
  ⟨⟨"2025-06-01", 1748736000000, rfl, by decide, by decide, by decide⟩,
   ⟨"2025-06-01", 1748736000000, rfl, by decide, by decide, by decide⟩,
   by decide, by decide⟩

/-- C9 (amended): when booking requests with valid future dates and with times present
and not empty, all for one free stored speaker, are served one after another,
each request taking its load, transition and persist steps before the next one
starts, exactly one succeeds, the first, and every other one is answered
"already scheduled" with the first caller as holder. -/
theorem C9_serial_bookings_one_success (newDate : String → JsDate) (r : Req) (rs : List Req)
    (speakers : List Speaker) (sp : Speaker)
    (hfind : findById Speaker._id speakers r.id = some sp)
    (hfree : sp.availability.isAvailable = true)
    (hall : ∀ q ∈ r :: rs, q.id = r.id ∧ q.body.makeAvailable = false ∧
      ValidFutureDate newDate q.now q.body.programDate ∧ Present q.body.programTime) :
    ∃ doc, (run newDate (r :: rs) (serial (r :: rs).length) (start (r :: rs) speakers)).phases =
      Phase.done (.ok doc) ::
        List.replicate rs.length (Phase.done (.alreadyScheduled r.userId)) := by
  obtain ⟨-, hbook, ⟨date, time, hd, hdne, hvalid, -⟩, ht⟩ := hall r (List.mem_cons_self _ _)
  have hid : sp._id = r.id := findById_key _ _ _ _ hfind
  have hfirst := patch_free newDate r speakers sp date time hfind hfree hbook hd hdne hvalid
    (present_truthy _ ht)
  refine ⟨{ sp with availability :=
        { isAvailable := false, programDate := some time,
          programTime := r.body.programTime, lockedBy := r.userId,
          lockedAt := some r.now } }, ?_⟩
  rw [run_serial]
  simp only [serve, hfirst, List.map_cons]
  have hstored := findById_setAvailability speakers sp._id
    { isAvailable := false, programDate := some time,
      programTime := r.body.programTime, lockedBy := r.userId,
      lockedAt := some r.now } sp (by rw [hid]; exact hfind)
  rw [serve_locked newDate r.id _ _ (by rw [← hid]; exact hstored) rfl rs
    (fun q hq => by
      obtain ⟨h1, h2, ⟨s, _, h3, h4, _, _⟩, h5⟩ := hall q (List.mem_cons_of_mem _ hq)
      exact ⟨h1, h2, ⟨s, h3, h4⟩, h5⟩)]
  simp

theorem C9_serial_bookings_one_success_witness :
    ∃ doc, (run sampleDate [bookReq 8 60, bookReq 9 61, bookReq 5 62]
        (serial [bookReq 8 60, bookReq 9 61, bookReq 5 62].length)
        (start [bookReq 8 60, bookReq 9 61, bookReq 5 62] [freeSpeaker])).phases =
      Phase.done (.ok doc) ::
        List.replicate [bookReq 9 61, bookReq 5 62].length
          (Phase.done (.alreadyScheduled (bookReq 8 60).userId)) :=
  C9_serial_bookings_one_success sampleDate (bookReq 8 60) [bookReq 9 61, bookReq 5 62]
    [freeSpeaker] freeSpeaker (by decide) rfl
    (by
      intro q hq
      simp only [List.mem_cons, List.mem_singleton, List.not_mem_nil, or_false] at hq
      rcases hq with h | h | h <;> subst h <;>
        exact ⟨rfl, rfl, ⟨"2025-06-01", 1748736000000, rfl, by decide, by decide, by decide⟩,
          ⟨"10:00", rfl, by decide⟩⟩)

end SpeakerCheck
